import Mathlib

/-!
Verification of the TokenCounter Go backend (`src/main.go`) against its
natural-language specification.

The development shallowly embeds the program: the PostgreSQL table
`token_usage` becomes a list of records, each SQL statement becomes the
corresponding list operation (rows in insertion order, `QueryRow` takes the
first matching row), Go `time.Time` calendar values become a `Date`
structure together with an epoch-day conversion, and each HTTP handler
becomes a pure function from the request data and the store to a response
value.  Machine integers are modelled as `Int`/`Nat`; none of the involved
quantities can overflow in the scenarios the claims quantify over.
-/

set_option autoImplicit false

namespace TokenCounter

/-! ### Calendar dates

Go's `time.Time` values that this service builds always carry a pure
calendar day (the JSON decoder is fed midnight timestamps and the
`DATE` column stores only the day), so a date is a year/month/day triple.
-/

/-- A calendar day, as stored in the `date DATE NOT NULL` column. -/
structure Date where
  year : Int
  month : Nat
  day : Nat
deriving DecidableEq, Repr

/-- Leap-year rule of the proleptic Gregorian calendar (as in Go's
`time` package and PostgreSQL). -/
def isLeapYear (y : Int) : Bool :=
  y % 4 = 0 && (y % 100 ≠ 0 || y % 400 = 0)

/-- Number of days in a month, as in Go `time.daysIn`. -/
def daysInMonth (y : Int) (m : Nat) : Nat :=
  if m = 2 then (if isLeapYear y then 29 else 28)
  else if m = 4 || m = 6 || m = 9 || m = 11 then 30
  else 31

/-- A year/month/day triple denotes an actual calendar day. -/
def Date.valid (d : Date) : Bool :=
  1 ≤ d.month && d.month ≤ 12 && 1 ≤ d.day && d.day ≤ daysInMonth d.year d.month

/-- Shifted year used by the civil-from-days conversion: January and
February count as months 10 and 11 of the previous year. -/
def dateYearAdj (d : Date) : Int :=
  if d.month ≤ 2 then d.year - 1 else d.year

/-- Day-of-year offset of the first day of a (March-based) month. -/
def monthDoy (m : Nat) : Int :=
  Int.ediv (153 * (if 2 < m then (m : Int) - 3 else (m : Int) + 9) + 2) 5

/-- Days contributed by a year-of-era `y` (`0 ≤ y ≤ 399`). -/
def yearDays (y : Int) : Int :=
  y * 365 + Int.ediv y 4 - Int.ediv y 100

/-- Days since the Unix epoch 1970-01-01 of a calendar day (the standard
civil-calendar conversion; Go's `time` package agrees with it on every
valid date).  This is the order in which the `DATE` column compares. -/
def toDays (dt : Date) : Int :=
  Int.ediv (dateYearAdj dt) 400 * 146097
    + yearDays (dateYearAdj dt - Int.ediv (dateYearAdj dt) 400 * 400)
    + monthDoy dt.month + (dt.day : Int) - 1 - 719468

example : toDays ⟨1970, 1, 1⟩ = 0 := by decide
example : toDays ⟨2024, 1, 1⟩ = 19723 := by decide
example : toDays ⟨2024, 1, 10⟩ = 19732 := by decide
example : toDays ⟨2000, 3, 1⟩ = 11017 := by decide

/-- Go's `Weekday()` (Sunday = 0, …, Saturday = 6); 1970-01-01 was a
Thursday (= 4). -/
def goWeekday (d : Date) : Int :=
  (toDays d + 4).emod 7

example : goWeekday ⟨2024, 1, 7⟩ = 0 := by decide
example : goWeekday ⟨2024, 1, 10⟩ = 3 := by decide

/-! ### Parsing date strings

Two distinct Go parsers appear in `main.go`:

* `time.Parse("2006-01-02", s)` in `getTokenUsageByDateAndModel`,
* the `encoding/json` decoding of a `time.Time` field in
  `recordTokenUsage`, which is `time.Parse(time.RFC3339, s)` on the
  quoted string (strict RFC 3339: `YYYY-MM-DDTHH:MM:SS[.frac](Z|±HH:MM)`).

Both validate digit counts, literal separators and component ranges
(month 1–12, day 1–`daysInMonth`, hour ≤ 23, minute ≤ 59, second ≤ 59),
and reject trailing text.
-/

/-- Numeric value of a decimal digit character. -/
def digitVal (c : Char) : Nat := c.toNat - 48

/-- Two-digit decimal field. -/
def num2 (a b : Char) : Nat := 10 * digitVal a + digitVal b

/-- Four-digit decimal field. -/
def num4 (a b c d : Char) : Nat :=
  1000 * digitVal a + 100 * digitVal b + 10 * digitVal c + digitVal d

/-- Component range checks shared by both parsers (Go's
"month out of range" / "day out of range for month" checks). -/
def validYMD (y : Int) (m d : Nat) : Bool :=
  1 ≤ m && m ≤ 12 && 1 ≤ d && d ≤ daysInMonth y m

/-- `time.Parse("2006-01-02", s)`: exactly `YYYY-MM-DD`, all digits in
place, ranges checked, nothing trailing. -/
def parseDateLayout (s : String) : Option Date :=
  match s.toList with
  | [y1, y2, y3, y4, '-', m1, m2, '-', d1, d2] =>
    if y1.isDigit && y2.isDigit && y3.isDigit && y4.isDigit
        && m1.isDigit && m2.isDigit && d1.isDigit && d2.isDigit then
      let y : Int := num4 y1 y2 y3 y4
      let m := num2 m1 m2
      let d := num2 d1 d2
      if validYMD y m d then some ⟨y, m, d⟩ else none
    else none
  | _ => none

example : parseDateLayout "2024-01-10" = some ⟨2024, 1, 10⟩ := by decide
example : parseDateLayout "2023-13-40" = none := by decide
example : parseDateLayout "2024-1-10" = none := by decide
example : parseDateLayout "2024-01-10T00:00:00Z" = none := by decide

/-- RFC 3339 numeric offset or `Z` (Go checks offset hour ≤ 23,
offset minute ≤ 59). -/
def offsetOk : List Char → Bool
  | ['Z'] => true
  | [sgn, h1, h2, ':', mi1, mi2] =>
    (sgn = '+' || sgn = '-') && h1.isDigit && h2.isDigit
      && mi1.isDigit && mi2.isDigit
      && num2 h1 h2 ≤ 23 && num2 mi1 mi2 ≤ 59
  | _ => false

/-- Drop a leading run of decimal digits. -/
def dropDigits : List Char → List Char
  | [] => []
  | c :: rest => if c.isDigit then dropDigits rest else c :: rest

/-- After the seconds field: an optional fraction (a dot followed by at
least one digit), then the offset. -/
def afterSeconds : List Char → Bool
  | '.' :: rest =>
    (match rest with
     | c :: _ => c.isDigit && offsetOk (dropDigits rest)
     | [] => false)
  | l => offsetOk l

/-- The JSON decoding Go applies to the `date` field of the POST body:
`time.Time.UnmarshalJSON` parses the string with the strict RFC 3339
layout.  The embedding returns the wall-clock calendar day, which is what
the `DATE` column stores. -/
def goTimeUnmarshal (s : String) : Option Date :=
  match s.toList with
  | y1 :: y2 :: y3 :: y4 :: '-' :: m1 :: m2 :: '-' :: d1 :: d2 :: 'T'
      :: h1 :: h2 :: ':' :: mi1 :: mi2 :: ':' :: s1 :: s2 :: rest =>
    if y1.isDigit && y2.isDigit && y3.isDigit && y4.isDigit
        && m1.isDigit && m2.isDigit && d1.isDigit && d2.isDigit
        && h1.isDigit && h2.isDigit && mi1.isDigit && mi2.isDigit
        && s1.isDigit && s2.isDigit then
      let y : Int := num4 y1 y2 y3 y4
      let mo := num2 m1 m2
      let da := num2 d1 d2
      if validYMD y mo da && num2 h1 h2 ≤ 23 && num2 mi1 mi2 ≤ 59
          && num2 s1 s2 ≤ 59 && afterSeconds rest then
        some ⟨y, mo, da⟩
      else none
    else none
  | _ => none

example : goTimeUnmarshal "2024-01-10T00:00:00Z" = some ⟨2024, 1, 10⟩ := by decide
example : goTimeUnmarshal "2024-01-10" = none := by decide
example : goTimeUnmarshal "2024-01-10T15:30:05+05:30" = some ⟨2024, 1, 10⟩ := by decide
example : goTimeUnmarshal "2024-01-10T00:00:00.123Z" = some ⟨2024, 1, 10⟩ := by decide
example : goTimeUnmarshal "2024-13-10T00:00:00Z" = none := by decide

/-! ### The store

The `token_usage` table: rows in insertion order, `id SERIAL` assigned by
the store.  `QueryRow` returns the first matching row. -/

/-- One row of `token_usage` (the Go struct `TokenUsage`). -/
structure TokenUsage where
  id : Nat
  date : Date
  model : String
  totalTokens : Int
deriving DecidableEq, Repr

/-- The table contents, rows in storage-natural (insertion) order. -/
abbrev Store := List TokenUsage

/-- Row filter of `WHERE date = $1 AND model = $2`. -/
def keyMatch (d : Date) (m : String) (r : TokenUsage) : Bool :=
  r.date = d && r.model = m

/-- The next `SERIAL` value: one more than the largest id in use. -/
def nextId (st : Store) : Nat :=
  st.foldr (fun r a => max r.id a) 0 + 1

/-! ### POST /token_usage — recordTokenUsage -/

/-- The decoded-except-for-the-date POST body: `model` and `total_tokens`
decode as plain JSON scalars; the `date` field is kept as the raw string
the client sent, because its decoding (`goTimeUnmarshal`) is part of the
behaviour under verification. -/
structure RawBody where
  dateStr : String
  model : String
  totalTokens : Int
deriving DecidableEq, Repr

/-- Responses of `recordTokenUsage` (storage errors are outside the
sequential store model, which never fails). -/
inductive RecordResult where
  | invalidPayload
  | created
  | updated
deriving DecidableEq, Repr

/-- HTTP status of each `recordTokenUsage` response. -/
def RecordResult.status : RecordResult → Nat
  | .invalidPayload => 400
  | .created => 201
  | .updated => 200

/-- `recordTokenUsage`: decode the body (400 on failure); `SELECT id ...
WHERE date = $1 AND model = $2`; on no row, `INSERT` and answer 201; on a
row, `UPDATE token_usage SET total_tokens = $1 WHERE id = $2` and answer
200. -/
def recordTokenUsage (st : Store) (b : RawBody) : Store × RecordResult :=
  match goTimeUnmarshal b.dateStr with
  | none => (st, .invalidPayload)
  | some d =>
    match st.find? (keyMatch d b.model) with
    | none =>
      (st ++ [⟨nextId st, d, b.model, b.totalTokens⟩], .created)
    | some ex =>
      (st.map (fun x => if x.id = ex.id then { x with totalTokens := b.totalTokens } else x),
       .updated)

/-- A sequence of POST requests handled one after the other. -/
def applyAll (st : Store) (bs : List RawBody) : Store :=
  bs.foldl (fun s b => (recordTokenUsage s b).1) st

/-! ### GET /token_usage/{date}/{model} — getTokenUsageByDateAndModel -/

/-- Responses of the single (date, model) lookup. -/
inductive LookupResult where
  | invalidDate
  | noData
  | found (totalTokens : Int)
deriving DecidableEq, Repr

/-- HTTP status of each lookup response. -/
def LookupResult.httpStatus : LookupResult → Nat
  | .invalidDate => 400
  | .noData => 200
  | .found _ => 200

/-- The `status` flag of the JSON payload (absent on the 400 answer). -/
def LookupResult.statusFlag : LookupResult → Option Nat
  | .invalidDate => none
  | .noData => some 0
  | .found _ => some 1

/-- The `total_tokens` field of the JSON payload, when present. -/
def LookupResult.tokensOut : LookupResult → Option Int
  | .invalidDate => none
  | .noData => none
  | .found n => some n

/-- `getTokenUsageByDateAndModel`: parse the `{date}` segment with layout
`2006-01-02` (400 on failure, before any query); `SELECT total_tokens ...
WHERE date = $1 AND model = $2`; `sql.ErrNoRows` becomes the 200 answer
with `status: 0`, a row becomes the 200 answer with `status: 1`. -/
def getTokenUsageByDateAndModel (st : Store) (dateStr model : String) : LookupResult :=
  match parseDateLayout dateStr with
  | none => .invalidDate
  | some d =>
    match st.find? (keyMatch d model) with
    | none => .noData
    | some r => .found r.totalTokens

/-! ### GET /token_usage/{model}/{period} — getTokenUsageByPeriod -/

/-- Responses of the period aggregate. -/
inductive PeriodResult where
  | invalidPeriod
  | notFoundZero
  | ok (totalTokens : Int)
deriving DecidableEq, Repr

/-- HTTP status of each period-aggregate response. -/
def PeriodResult.status : PeriodResult → Nat
  | .invalidPeriod => 400
  | .notFoundZero => 404
  | .ok _ => 200

/-- The 400 message of the `default` branch, verbatim from the code. -/
def invalidPeriodMessage : String :=
  "Invalid period. Use 'week', 'month' or 'lifetime'"

/-- Message field of each period-aggregate response. -/
def PeriodResult.message : PeriodResult → Option String
  | .invalidPeriod => some invalidPeriodMessage
  | .notFoundZero => some "No token usage data found for this model"
  | .ok _ => none

/-- `today.AddDate(0, 0, -int(today.Weekday()))`: the Sunday on or
before today, as an epoch-day number. -/
def weekStartDays (today : Date) : Int :=
  toDays today - goWeekday today

/-- `today.AddDate(0, 0, -today.Day()+1)`: the first day of today's
month, as an epoch-day number. -/
def monthStartDays (today : Date) : Int :=
  toDays today - ((today.day : Int) - 1)

/-- `SELECT COALESCE(SUM(total_tokens), 0) FROM token_usage WHERE model =
$1 [AND date >= $2]`: `none` is the `startDate.IsZero()` case (no date
filter), `some s` filters `date >= s`.  Note the query has no upper date
bound. -/
def dbSumTokens (st : Store) (model : String) (sd : Option Int) : Int :=
  st.foldr
    (fun r a =>
      if r.model = model && (match sd with
        | none => true
        | some s => decide (s ≤ toDays r.date)) then r.totalTokens + a else a)
    0

/-- The sum the handler computes for each valid period (the `switch`
selecting `startDate`, then the query). -/
def periodQuerySum (st : Store) (today : Date) (model period : String) : Int :=
  if period = "week" then dbSumTokens st model (some (weekStartDays today))
  else if period = "month" then dbSumTokens st model (some (monthStartDays today))
  else dbSumTokens st model none

/-- `getTokenUsageByPeriod`: `switch period` chooses the start date
(zero time for `lifetime`, 400 for anything else), the query sums
`total_tokens` for the model from the start date on, and a zero sum
becomes the 404 answer. -/
def getTokenUsageByPeriod (st : Store) (today : Date) (model period : String) : PeriodResult :=
  if period = "week" then
    let s := dbSumTokens st model (some (weekStartDays today))
    if s = 0 then .notFoundZero else .ok s
  else if period = "month" then
    let s := dbSumTokens st model (some (monthStartDays today))
    if s = 0 then .notFoundZero else .ok s
  else if period = "lifetime" then
    let s := dbSumTokens st model none
    if s = 0 then .notFoundZero else .ok s
  else
    .invalidPeriod

/-! ### Spec-side comparison definitions

These two follow the specification's words, to be compared with the
code-derived `dbSumTokens` filters (refinement-style). -/

/-- Spec-side week aggregate: "sum `totalTokens` for that model from the
most recent start-of-week (inclusive) through now" — records dated from
the week start through today. -/
def weekSumThroughNow (st : Store) (today : Date) (model : String) : Int :=
  st.foldr
    (fun r a =>
      if r.model = model && weekStartDays today ≤ toDays r.date
          && toDays r.date ≤ toDays today then r.totalTokens + a else a)
    0

/-- Spec-side month aggregate: "sum from the first day of the current
calendar month through now". -/
def monthSumThroughNow (st : Store) (today : Date) (model : String) : Int :=
  st.foldr
    (fun r a =>
      if r.model = model && monthStartDays today ≤ toDays r.date
          && toDays r.date ≤ toDays today then r.totalTokens + a else a)
    0

/-- Spec-side lifetime aggregate: "the sum of `total_tokens` across all
its records regardless of date". -/
def lifetimeSumSpec (st : Store) (model : String) : Int :=
  st.foldr (fun r a => if r.model = model then r.totalTokens + a else a) 0

/-! ### Route dispatch

`mux.NewRouter()` tries routes in registration order; a `{name}` segment
matches any single non-empty path segment, and `.Methods(m)` additionally
requires the request method.  The four registrations of `main`: -/

/-- Handlers registered in `main`. -/
inductive HandlerTag where
  | recordUsageH
  | getAllH
  | byDateModelH
  | byPeriodH
deriving DecidableEq, Repr

/-- One pattern segment: a literal, or a `{name}` variable. -/
inductive Seg where
  | lit (s : String)
  | pvar (name : String)
deriving DecidableEq, Repr

/-- A `{name}` variable matches any non-empty segment (mux's default
`[^/]+`); a literal matches itself. -/
def segMatches : Seg → String → Bool
  | .lit s, t => s = t
  | .pvar _, t => t ≠ ""

/-- A pattern matches a path of exactly the same length, segmentwise. -/
def patMatches : List Seg → List String → Bool
  | [], [] => true
  | p :: ps, t :: ts => segMatches p t && patMatches ps ts
  | _, _ => false

/-- A registered route: required method, path pattern, handler. -/
structure Route where
  method : String
  pattern : List Seg
  handler : HandlerTag
deriving Repr

/-- The four `router.HandleFunc` registrations, in program order. -/
def routes : List Route :=
  [⟨"POST", [Seg.lit "token_usage"], .recordUsageH⟩,
   ⟨"GET", [Seg.lit "token_usage"], .getAllH⟩,
   ⟨"GET", [Seg.lit "token_usage", Seg.pvar "date", Seg.pvar "model"], .byDateModelH⟩,
   ⟨"GET", [Seg.lit "token_usage", Seg.pvar "model", Seg.pvar "period"], .byPeriodH⟩]

/-- Route dispatch: the first route whose method and pattern both match
handles the request (mux keeps trying later routes after a
method-mismatch, which for this route set coincides with requiring both
at once). -/
def dispatch (method : String) (path : List String) : Option HandlerTag :=
  (routes.find? (fun r => r.method = method && patMatches r.pattern path)).map
    (fun r => r.handler)

example : dispatch "POST" ["token_usage"] = some .recordUsageH := by decide
example : dispatch "GET" ["token_usage"] = some .getAllH := by decide
example : dispatch "GET" ["token_usage", "2024-01-10", "gpt-4"] = some .byDateModelH := by decide
example : dispatch "GET" ["token_usage", "gpt-4", "week"] = some .byDateModelH := by decide

/-! ### Startup connection retries

The bootstrap loop of `main`: up to `maxRetries = 5` iterations; each
iteration opens, and on success pings; an open failure logs, sleeps
`retryDelay`, doubles it and continues; a ping failure does the same and
additionally closes the handle; success breaks out; a non-nil error
after the loop is `log.Fatal`.  The backend's behaviour at each attempt
is an oracle indexed by the attempt number. -/

/-- What the backend does on a given connection attempt. -/
inductive AttemptOutcome where
  | openFail
  | pingFail
  | ok
deriving DecidableEq, Repr

/-- Observable actions of the bootstrap loop, in order. -/
inductive InitAction where
  | openConn
  | pingConn
  | sleepFor (d : Nat)
  | closeConn
deriving DecidableEq, Repr

/-- Result of the bootstrap: connected after a given attempt, or
`log.Fatal`. -/
inductive ConnectOutcome where
  | connected (attempt : Nat)
  | fatal
deriving DecidableEq, Repr

/-- The retry loop: `i` is the attempt index, `rem` the remaining
iterations, `delay` the current `retryDelay`. -/
def connectGo (oracle : Nat → AttemptOutcome) :
    Nat → Nat → Nat → List InitAction × ConnectOutcome
  | _, 0, _ => ([], .fatal)
  | i, rem + 1, delay =>
    match oracle i with
    | .openFail =>
      let r := connectGo oracle (i + 1) rem (delay * 2)
      (.openConn :: .sleepFor delay :: r.1, r.2)
    | .pingFail =>
      let r := connectGo oracle (i + 1) rem (delay * 2)
      (.openConn :: .pingConn :: .sleepFor delay :: .closeConn :: r.1, r.2)
    | .ok => ([.openConn, .pingConn], .connected i)

/-- The bootstrap as written: `maxRetries := 5`, `retryDelay := 2`
(seconds as abstract time units). -/
def initStoreConnect (oracle : Nat → AttemptOutcome) :
    List InitAction × ConnectOutcome :=
  connectGo oracle 0 5 2

/-- Number of `openConn` actions in a trace (attempts made). -/
def countOpens : List InitAction → Nat
  | [] => 0
  | .openConn :: tl => countOpens tl + 1
  | _ :: tl => countOpens tl

/-- Number of `pingConn` actions in a trace. -/
def countPings : List InitAction → Nat
  | [] => 0
  | .pingConn :: tl => countPings tl + 1
  | _ :: tl => countPings tl

/-- Number of `closeConn` actions in a trace. -/
def countCloses : List InitAction → Nat
  | [] => 0
  | .closeConn :: tl => countCloses tl + 1
  | _ :: tl => countCloses tl

/-- The sleep durations of a trace, in order. -/
def sleepDurations : List InitAction → List Nat
  | [] => []
  | .sleepFor d :: tl => d :: sleepDurations tl
  | _ :: tl => sleepDurations tl

/-! ### The uniqueness invariant -/

/-- No two rows of the table share the (`date`, `model`) pair. -/
def noDupKeys : Store → Bool
  | [] => true
  | r :: rest => rest.all (fun x => !(keyMatch r.date r.model x)) && noDupKeys rest

/-! ## Helper lemmas -/

theorem find?_append_none {α : Type} (p : α → Bool) (l1 l2 : List α)
    (h : l1.find? p = none) : (l1 ++ l2).find? p = l2.find? p := by
  induction l1 with
  | nil => rfl
  | cons a tl ih =>
    rw [List.find?_cons] at h
    cases hp : p a with
    | false =>
      rw [hp] at h
      rw [List.cons_append, List.find?_cons, hp]
      exact ih h
    | true => rw [hp] at h; exact absurd h (by simp)

theorem id_le_maxFold (st : Store) (x : TokenUsage) (hx : x ∈ st) :
    x.id ≤ st.foldr (fun r a => max r.id a) 0 := by
  induction st with
  | nil => cases hx
  | cons r tl ih =>
    rcases List.mem_cons.1 hx with h | h
    · subst h; exact Nat.le_max_left _ _
    · exact Nat.le_trans (ih h) (Nat.le_max_right _ _)

theorem mem_id_lt_nextId (st : Store) (x : TokenUsage) (hx : x ∈ st) :
    x.id < nextId st :=
  Nat.lt_succ_of_le (id_le_maxFold st x hx)

theorem map_update_fresh (st : Store) (i : Nat) (f : TokenUsage → TokenUsage)
    (h : ∀ x ∈ st, x.id ≠ i) :
    st.map (fun x => if x.id = i then f x else x) = st := by
  induction st with
  | nil => rfl
  | cons r tl ih =>
    rw [List.map_cons, if_neg (h r (by simp)), ih (fun x hx => h x (by simp [hx]))]

theorem noDupKeys_append_single (st : Store) (n : TokenUsage)
    (h : noDupKeys st = true)
    (hn : ∀ x ∈ st, keyMatch n.date n.model x = false) :
    noDupKeys (st ++ [n]) = true := by
  induction st with
  | nil => rfl
  | cons r tl ih =>
    rw [noDupKeys, Bool.and_eq_true, List.all_eq_true] at h
    obtain ⟨hall, hrest⟩ := h
    rw [List.cons_append, noDupKeys, Bool.and_eq_true, List.all_eq_true]
    refine ⟨?_, ih hrest (fun x hx => hn x (by simp [hx]))⟩
    intro x hx
    rcases List.mem_append.1 hx with hx | hx
    · exact hall x hx
    · have hxn : x = n := by simpa using hx
      subst hxn
      have hr := hn r (by simp)
      simp only [keyMatch, Bool.and_eq_false_iff, decide_eq_false_iff_not] at hr
      simp only [keyMatch, Bool.not_eq_eq_eq_not, Bool.not_true, Bool.and_eq_false_iff,
        decide_eq_false_iff_not]
      rcases hr with hr | hr
      · exact Or.inl (fun e => hr e.symm)
      · exact Or.inr (fun e => hr e.symm)

theorem noDupKeys_map_keep (st : Store) (f : TokenUsage → TokenUsage)
    (hd : ∀ x, (f x).date = x.date) (hm : ∀ x, (f x).model = x.model) :
    noDupKeys (st.map f) = noDupKeys st := by
  induction st with
  | nil => rfl
  | cons r tl ih =>
    rw [List.map_cons, noDupKeys, noDupKeys, ih, List.all_map]
    have : (fun x => !(keyMatch (f r).date (f r).model x)) ∘ f
        = (fun x => !(keyMatch r.date r.model x)) := by
      funext x; simp [Function.comp, keyMatch, hd, hm]
    rw [this]

theorem noDupKeys_record (st : Store) (b : RawBody) (h : noDupKeys st = true) :
    noDupKeys (recordTokenUsage st b).1 = true := by
  cases hdec : goTimeUnmarshal b.dateStr with
  | none => simpa [recordTokenUsage, hdec] using h
  | some d =>
    cases hfind : st.find? (keyMatch d b.model) with
    | none =>
      have hforall : ∀ x ∈ st, keyMatch d b.model x = false := by
        intro x hx
        have := List.find?_eq_none.1 hfind x hx
        simpa using this
      simp only [recordTokenUsage, hdec, hfind]
      exact noDupKeys_append_single st _ h (fun x hx => hforall x hx)
    | some ex =>
      simp only [recordTokenUsage, hdec, hfind]
      rw [noDupKeys_map_keep]
      · exact h
      · intro x; by_cases hx : x.id = ex.id <;> simp [hx]
      · intro x; by_cases hx : x.id = ex.id <;> simp [hx]

/-! ## Claims -/

/-- C1: for every valid report (date, model, n1) followed by a report
(date, model, n2) on a store with no row yet for that pair, the first
report answers `created` (201), the second answers `updated` (200), and a
subsequent single lookup for (date, model) returns n2 — last write wins,
no summation on write. -/
theorem upsert_last_write_wins (st : Store) (b1 b2 : RawBody) (d : Date) (dateStr : String)
    (h1 : goTimeUnmarshal b1.dateStr = some d)
    (h2 : goTimeUnmarshal b2.dateStr = some d)
    (hm : b2.model = b1.model)
    (hfresh : st.find? (keyMatch d b1.model) = none)
    (hds : parseDateLayout dateStr = some d) :
    (recordTokenUsage st b1).2 = .created ∧
    ((recordTokenUsage st b1).2).status = 201 ∧
    (recordTokenUsage (recordTokenUsage st b1).1 b2).2 = .updated ∧
    ((recordTokenUsage (recordTokenUsage st b1).1 b2).2).status = 200 ∧
    getTokenUsageByDateAndModel (recordTokenUsage (recordTokenUsage st b1).1 b2).1
      dateStr b2.model = .found b2.totalTokens := by
  have hst1 : recordTokenUsage st b1
      = (st ++ [⟨nextId st, d, b1.model, b1.totalTokens⟩], .created) := by
    simp [recordTokenUsage, h1, hfresh]
  have hkm : keyMatch d b1.model ⟨nextId st, d, b1.model, b1.totalTokens⟩ = true := by
    simp [keyMatch]
  have hfind1 : (st ++ [(⟨nextId st, d, b1.model, b1.totalTokens⟩ : TokenUsage)]).find?
      (keyMatch d b2.model) = some ⟨nextId st, d, b1.model, b1.totalTokens⟩ := by
    rw [hm, find?_append_none _ _ _ hfresh, List.find?_cons, hkm]
  have hmapfresh : st.map (fun x =>
      if x.id = nextId st then { x with totalTokens := b2.totalTokens } else x) = st :=
    map_update_fresh st (nextId st) _
      (fun x hx => Nat.ne_of_lt (mem_id_lt_nextId st x hx))
  have hst2 : recordTokenUsage (recordTokenUsage st b1).1 b2
      = (st ++ [⟨nextId st, d, b1.model, b2.totalTokens⟩], .updated) := by
    rw [hst1]
    simp only [recordTokenUsage, h2, hfind1, List.map_append, hmapfresh]
    simp
  have hfind2 : (st ++ [(⟨nextId st, d, b1.model, b2.totalTokens⟩ : TokenUsage)]).find?
      (keyMatch d b2.model) = some ⟨nextId st, d, b1.model, b2.totalTokens⟩ := by
    rw [hm, find?_append_none _ _ _ hfresh, List.find?_cons]
    simp [keyMatch]
  refine ⟨by rw [hst1], by rw [hst1]; rfl, by rw [hst2], by rw [hst2]; rfl, ?_⟩
  rw [hst2]
  simp [getTokenUsageByDateAndModel, hds, hfind2]

/-- Witness for C1: the spec's own example — report 100 then 150 for
(2024-01-10, gpt-4) on an empty store; 201 then 200, and the lookup
returns 150. -/
theorem upsert_last_write_wins_witness :
    (recordTokenUsage [] ⟨"2024-01-10T00:00:00Z", "gpt-4", 100⟩).2 = .created ∧
    ((recordTokenUsage [] ⟨"2024-01-10T00:00:00Z", "gpt-4", 100⟩).2).status = 201 ∧
    (recordTokenUsage (recordTokenUsage [] ⟨"2024-01-10T00:00:00Z", "gpt-4", 100⟩).1
      ⟨"2024-01-10T00:00:00Z", "gpt-4", 150⟩).2 = .updated ∧
    ((recordTokenUsage (recordTokenUsage [] ⟨"2024-01-10T00:00:00Z", "gpt-4", 100⟩).1
      ⟨"2024-01-10T00:00:00Z", "gpt-4", 150⟩).2).status = 200 ∧
    getTokenUsageByDateAndModel
      (recordTokenUsage (recordTokenUsage [] ⟨"2024-01-10T00:00:00Z", "gpt-4", 100⟩).1
        ⟨"2024-01-10T00:00:00Z", "gpt-4", 150⟩).1 "2024-01-10" "gpt-4" = .found 150 :=
  upsert_last_write_wins [] ⟨"2024-01-10T00:00:00Z", "gpt-4", 100⟩
    ⟨"2024-01-10T00:00:00Z", "gpt-4", 150⟩ ⟨2024, 1, 10⟩ "2024-01-10"
    (by decide) (by decide) (by decide) (by decide) (by decide)

/-- C2: starting from a store with at most one row per (date, model)
pair, any sequence of `recordTokenUsage` operations applied sequentially
leaves at most one row per pair — the handler queries before writing and
updates the existing row instead of inserting a second one. -/
theorem unique_key_invariant (st : Store) (bs : List RawBody)
    (h : noDupKeys st = true) : noDupKeys (applyAll st bs) = true := by
  induction bs generalizing st with
  | nil => exact h
  | cons b tl ih => exact ih _ (noDupKeys_record st b h)

/-- Witness for C2: three posts (two for the same pair) on the empty
store leave no duplicate (date, model) pair. -/
theorem unique_key_invariant_witness :
    noDupKeys (applyAll [] [⟨"2024-01-10T00:00:00Z", "gpt-4", 100⟩,
      ⟨"2024-01-10T00:00:00Z", "gpt-4", 150⟩,
      ⟨"2024-01-11T00:00:00Z", "gpt-4", 7⟩]) = true :=
  unique_key_invariant [] _ (by decide)

/-- Counterexample to C3: the POST body `{date: "2024-01-10", model:
"gpt-4", total_tokens: 100}` is rejected — `time.Time`'s JSON decoding
requires RFC 3339, so the decode fails, the handler answers 400 and no
row is created. -/
theorem plain_date_post_rejected :
    (recordTokenUsage [] ⟨"2024-01-10", "gpt-4", 100⟩).2 = RecordResult.invalidPayload ∧
    ((recordTokenUsage [] ⟨"2024-01-10", "gpt-4", 100⟩).2).status = 400 ∧
    ((recordTokenUsage [] ⟨"2024-01-10", "gpt-4", 100⟩).2 ≠ RecordResult.created) ∧
    (recordTokenUsage [] ⟨"2024-01-10", "gpt-4", 100⟩).1 = [] := by
  decide

/-- C3 as amended: a POST body whose date field is an RFC 3339 timestamp
(e.g. `"2024-01-10T00:00:00Z"`) is accepted — it does not produce the 400
malformed-body error, and a first such report for its (date, model) pair
answers 201 `created`; a plain `"YYYY-MM-DD"` date is rejected with
400. -/
theorem rfc3339_post_created (st : Store) (b : RawBody) (d : Date)
    (hdec : goTimeUnmarshal b.dateStr = some d)
    (hfresh : st.find? (keyMatch d b.model) = none) :
    (recordTokenUsage st b).2 = .created ∧
    ((recordTokenUsage st b).2).status = 201 := by
  simp [recordTokenUsage, hdec, hfresh, RecordResult.status]

/-- Witness for the amended C3: the spec's example body with the date
written as an RFC 3339 timestamp, on the empty store. -/
theorem rfc3339_post_created_witness :
    (recordTokenUsage [] ⟨"2024-01-10T00:00:00Z", "gpt-4", 100⟩).2 = RecordResult.created ∧
    ((recordTokenUsage [] ⟨"2024-01-10T00:00:00Z", "gpt-4", 100⟩).2).status = 201 :=
  rfc3339_post_created [] ⟨"2024-01-10T00:00:00Z", "gpt-4", 100⟩ ⟨2024, 1, 10⟩
    (by decide) (by decide)

theorem periodEval_week (st : Store) (today : Date) (model : String) :
    getTokenUsageByPeriod st today model "week"
      = (if dbSumTokens st model (some (weekStartDays today)) = 0
         then PeriodResult.notFoundZero
         else PeriodResult.ok (dbSumTokens st model (some (weekStartDays today)))) := rfl

theorem periodEval_month (st : Store) (today : Date) (model : String) :
    getTokenUsageByPeriod st today model "month"
      = (if dbSumTokens st model (some (monthStartDays today)) = 0
         then PeriodResult.notFoundZero
         else PeriodResult.ok (dbSumTokens st model (some (monthStartDays today)))) := rfl

theorem periodEval_lifetime (st : Store) (today : Date) (model : String) :
    getTokenUsageByPeriod st today model "lifetime"
      = (if dbSumTokens st model none = 0
         then PeriodResult.notFoundZero
         else PeriodResult.ok (dbSumTokens st model none)) := rfl

theorem periodQuerySum_week (st : Store) (today : Date) (model : String) :
    periodQuerySum st today model "week"
      = dbSumTokens st model (some (weekStartDays today)) := rfl

theorem periodQuerySum_month (st : Store) (today : Date) (model : String) :
    periodQuerySum st today model "month"
      = dbSumTokens st model (some (monthStartDays today)) := rfl

theorem periodQuerySum_lifetime (st : Store) (today : Date) (model : String) :
    periodQuerySum st today model "lifetime" = dbSumTokens st model none := rfl

/-- C5: for every (model, period) with a valid period, the aggregate
answers 404 exactly when the computed sum is zero (no matching rows, or
matched rows summing to zero), and otherwise 200 with the sum. -/
theorem zero_sum_not_found (st : Store) (today : Date) (model period : String)
    (hp : period = "week" ∨ period = "month" ∨ period = "lifetime") :
    (getTokenUsageByPeriod st today model period = PeriodResult.notFoundZero
        ↔ periodQuerySum st today model period = 0) ∧
    (periodQuerySum st today model period ≠ 0 →
      getTokenUsageByPeriod st today model period
        = PeriodResult.ok (periodQuerySum st today model period)) ∧
    PeriodResult.status PeriodResult.notFoundZero = 404 ∧
    (∀ n : Int, PeriodResult.status (PeriodResult.ok n) = 200) := by
  rcases hp with h | h | h <;> subst h
  · rw [periodEval_week, periodQuerySum_week]
    refine ⟨?_, ?_, rfl, fun _ => rfl⟩ <;>
      by_cases hs : dbSumTokens st model (some (weekStartDays today)) = 0 <;> simp [hs]
  · rw [periodEval_month, periodQuerySum_month]
    refine ⟨?_, ?_, rfl, fun _ => rfl⟩ <;>
      by_cases hs : dbSumTokens st model (some (monthStartDays today)) = 0 <;> simp [hs]
  · rw [periodEval_lifetime, periodQuerySum_lifetime]
    refine ⟨?_, ?_, rfl, fun _ => rfl⟩ <;>
      by_cases hs : dbSumTokens st model none = 0 <;> simp [hs]

/-- Witness for C5: the lifetime aggregate of an empty store is the 404
answer, and with one 7-token row it is 200 with sum 7. -/
theorem zero_sum_not_found_witness :
    getTokenUsageByPeriod [] ⟨2024, 1, 10⟩ "gpt-4" "lifetime" = PeriodResult.notFoundZero ∧
    getTokenUsageByPeriod [⟨1, ⟨2020, 5, 5⟩, "gpt-4", 7⟩] ⟨2024, 1, 10⟩ "gpt-4" "lifetime"
      = PeriodResult.ok 7 :=
  ⟨(zero_sum_not_found [] ⟨2024, 1, 10⟩ "gpt-4" "lifetime"
      (Or.inr (Or.inr rfl))).1.mpr (by decide),
   (zero_sum_not_found [⟨1, ⟨2020, 5, 5⟩, "gpt-4", 7⟩] ⟨2024, 1, 10⟩ "gpt-4" "lifetime"
      (Or.inr (Or.inr rfl))).2.1 (by decide)⟩

/-- C7: the lifetime aggregate sums `total_tokens` over all stored
records of the model, regardless of their dates (no date filter in the
query), and the handler answers from exactly that sum. -/
theorem lifetime_sum_all_dates (st : Store) (today : Date) (model : String) :
    periodQuerySum st today model "lifetime" = lifetimeSumSpec st model ∧
    getTokenUsageByPeriod st today model "lifetime"
      = (if lifetimeSumSpec st model = 0 then PeriodResult.notFoundZero
         else PeriodResult.ok (lifetimeSumSpec st model)) := by
  have hsum : dbSumTokens st model none = lifetimeSumSpec st model := by
    induction st with
    | nil => rfl
    | cons r tl ih =>
      simp only [dbSumTokens, lifetimeSumSpec, List.foldr_cons] at ih ⊢
      rw [ih, Bool.and_true]
      simp
  exact ⟨by rw [periodQuerySum_lifetime, hsum], by rw [periodEval_lifetime, hsum]⟩

/-- C9: every period value outside week/month/lifetime — and only
those — yields the 400 answer whose message lists exactly the three valid
options, independently of the store (no storage call is made). -/
theorem invalid_period_rejected :
    (∀ (st : Store) (today : Date) (model period : String),
      getTokenUsageByPeriod st today model period = PeriodResult.invalidPeriod
        ↔ period ≠ "week" ∧ period ≠ "month" ∧ period ≠ "lifetime") ∧
    PeriodResult.status PeriodResult.invalidPeriod = 400 ∧
    PeriodResult.message PeriodResult.invalidPeriod = some invalidPeriodMessage ∧
    invalidPeriodMessage = "Invalid period. Use 'week', 'month' or 'lifetime'" := by
  refine ⟨?_, rfl, rfl, rfl⟩
  intro st today model period
  constructor
  · intro h
    refine ⟨fun he => ?_, fun he => ?_, fun he => ?_⟩ <;> subst he
    · rw [periodEval_week] at h
      split at h <;> exact absurd h (by simp)
    · rw [periodEval_month] at h
      split at h <;> exact absurd h (by simp)
    · rw [periodEval_lifetime] at h
      split at h <;> exact absurd h (by simp)
  · rintro ⟨h1, h2, h3⟩
    simp only [getTokenUsageByPeriod, if_neg h1, if_neg h2, if_neg h3]

/-- Witness for C9: the period `"year"` is rejected with the 400
answer. -/
theorem invalid_period_rejected_witness :
    getTokenUsageByPeriod [] ⟨2024, 1, 10⟩ "gpt-4" "year" = PeriodResult.invalidPeriod :=
  (invalid_period_rejected.1 [] ⟨2024, 1, 10⟩ "gpt-4" "year").mpr (by decide)

/-- C8: in the single (date, model) lookup, a malformed date segment
yields the 400 answer for every store (no storage call); a well-formed
date with no matching row yields the 200 answer with status flag 0 and
no token count; a matching row yields the 200 answer with its token
count and status flag 1. -/
theorem lookup_error_handling :
    (∀ (st : Store) (model dateStr : String), parseDateLayout dateStr = none →
      getTokenUsageByDateAndModel st dateStr model = LookupResult.invalidDate ∧
      (getTokenUsageByDateAndModel st dateStr model).httpStatus = 400) ∧
    (∀ (st : Store) (model dateStr : String) (d : Date),
      parseDateLayout dateStr = some d → st.find? (keyMatch d model) = none →
      getTokenUsageByDateAndModel st dateStr model = LookupResult.noData ∧
      (getTokenUsageByDateAndModel st dateStr model).httpStatus = 200 ∧
      (getTokenUsageByDateAndModel st dateStr model).statusFlag = some 0 ∧
      (getTokenUsageByDateAndModel st dateStr model).tokensOut = none) ∧
    (∀ (st : Store) (model dateStr : String) (d : Date) (r : TokenUsage),
      parseDateLayout dateStr = some d → st.find? (keyMatch d model) = some r →
      getTokenUsageByDateAndModel st dateStr model = LookupResult.found r.totalTokens ∧
      (getTokenUsageByDateAndModel st dateStr model).httpStatus = 200 ∧
      (getTokenUsageByDateAndModel st dateStr model).statusFlag = some 1) := by
  refine ⟨?_, ?_, ?_⟩
  · intro st model dateStr hp
    simp [getTokenUsageByDateAndModel, hp, LookupResult.httpStatus]
  · intro st model dateStr d hp hf
    simp [getTokenUsageByDateAndModel, hp, hf, LookupResult.httpStatus,
      LookupResult.statusFlag, LookupResult.tokensOut]
  · intro st model dateStr d r hp hf
    simp [getTokenUsageByDateAndModel, hp, hf, LookupResult.httpStatus,
      LookupResult.statusFlag]

/-- Witness for C8: the malformed segment `"2023-13-40"` gives the 400
answer; `"2024-01-10"` on the empty store gives the absent-status
answer; with a 150-token row for (2024-01-10, gpt-4) it gives the found
answer. -/
theorem lookup_error_handling_witness :
    getTokenUsageByDateAndModel [] "2023-13-40" "gpt-4" = LookupResult.invalidDate ∧
    getTokenUsageByDateAndModel [] "2024-01-10" "gpt-4" = LookupResult.noData ∧
    getTokenUsageByDateAndModel [⟨1, ⟨2024, 1, 10⟩, "gpt-4", 150⟩] "2024-01-10" "gpt-4"
      = LookupResult.found 150 :=
  ⟨(lookup_error_handling.1 [] "gpt-4" "2023-13-40" (by decide)).1,
   (lookup_error_handling.2.1 [] "gpt-4" "2024-01-10" ⟨2024, 1, 10⟩
      (by decide) (by decide)).1,
   (lookup_error_handling.2.2 [⟨1, ⟨2024, 1, 10⟩, "gpt-4", 150⟩] "gpt-4" "2024-01-10"
      ⟨2024, 1, 10⟩ ⟨1, ⟨2024, 1, 10⟩, "gpt-4", 150⟩ (by decide) (by decide)).1⟩

theorem pat34_eq (path : List String) :
    patMatches [Seg.lit "token_usage", Seg.pvar "date", Seg.pvar "model"] path
      = patMatches [Seg.lit "token_usage", Seg.pvar "model", Seg.pvar "period"] path := by
  match path with
  | [] => rfl
  | [a] => rfl
  | [a, b] => rfl
  | [a, b, c] => rfl
  | a :: b :: c :: e :: tl => rfl

/-- C4: every GET request of the two-segment shape
`/token_usage/{a}/{b}` is dispatched to the date-and-model lookup
handler (its route is registered first and matches any two segments),
and no HTTP request at all reaches `getTokenUsageByPeriod`. -/
theorem period_route_shadowed :
    (∀ a b : String, a ≠ "" → b ≠ "" →
      dispatch "GET" ["token_usage", a, b] = some HandlerTag.byDateModelH) ∧
    (∀ (method : String) (path : List String),
      dispatch method path ≠ some HandlerTag.byPeriodH) := by
  constructor
  · intro a b ha hb
    simp [dispatch, routes, List.find?_cons, patMatches, segMatches, ha, hb]
  · intro method path h
    simp only [dispatch, routes, List.find?_cons] at h
    split at h
    · simp at h
    · split at h
      · simp at h
      · split at h
        · simp at h
        · split at h
          · simp only [pat34_eq] at *
            simp_all
          · simp at h

/-- Witness for C4: the period-looking request GET
`/token_usage/gpt-4/week` is dispatched to the date-and-model handler,
not the period handler. -/
theorem period_route_shadowed_witness :
    dispatch "GET" ["token_usage", "gpt-4", "week"] = some HandlerTag.byDateModelH ∧
    dispatch "GET" ["token_usage", "gpt-4", "week"] ≠ some HandlerTag.byPeriodH :=
  ⟨period_route_shadowed.1 "gpt-4" "week" (by decide) (by decide),
   period_route_shadowed.2 "GET" ["token_usage", "gpt-4", "week"]⟩

theorem toDays_day_split (y : Int) (m d : Nat) :
    toDays ⟨y, m, d⟩ = toDays ⟨y, m, 1⟩ + ((d : Int) - 1) := by
  simp only [toDays, dateYearAdj, monthDoy]
  push_cast
  ring

theorem goWeekday_nonneg (d : Date) : 0 ≤ goWeekday d :=
  Int.emod_nonneg _ (by decide)

theorem weekStart_le_today (today : Date) : weekStartDays today ≤ toDays today := by
  have := goWeekday_nonneg today
  unfold weekStartDays
  omega

theorem dbSumTokens_cons_some (r : TokenUsage) (st : Store) (model : String) (s : Int) :
    dbSumTokens (r :: st) model (some s)
      = (if r.model = model && decide (s ≤ toDays r.date) then r.totalTokens else 0)
        + dbSumTokens st model (some s) := by
  have hstep : dbSumTokens (r :: st) model (some s)
      = (if r.model = model && decide (s ≤ toDays r.date)
         then r.totalTokens + dbSumTokens st model (some s)
         else dbSumTokens st model (some s)) := rfl
  rw [hstep]
  cases hc : (r.model = model && decide (s ≤ toDays r.date)) <;> simp [hc]

/-- Counterexample to C6: on 2024-01-10 (a Wednesday; week start
2024-01-07), a 100-token gpt-4 record dated 2024-01-20 — in the future,
outside the current week — is included in the handler's week sum (the
query has no upper date bound), so the week sum is not "exactly the
records from the week start through now". -/
theorem week_through_now_counterexample :
    periodQuerySum [⟨1, ⟨2024, 1, 20⟩, "gpt-4", 100⟩] ⟨2024, 1, 10⟩ "gpt-4" "week"
        ≠ weekSumThroughNow [⟨1, ⟨2024, 1, 20⟩, "gpt-4", 100⟩] ⟨2024, 1, 10⟩ "gpt-4" ∧
    periodQuerySum [⟨1, ⟨2024, 1, 20⟩, "gpt-4", 100⟩] ⟨2024, 1, 10⟩ "gpt-4" "week" = 100 ∧
    weekSumThroughNow [⟨1, ⟨2024, 1, 20⟩, "gpt-4", 100⟩] ⟨2024, 1, 10⟩ "gpt-4" = 0 := by
  refine ⟨?_, by decide, by decide⟩
  decide

/-- C6 as amended: the week sum covers the model's records dated on or
after the most recent start-of-week and the month sum those dated on or
after the first day of the current month, with no upper bound; hence a
record dated inside the current month but before the current week's
start is excluded from the week sum and included in the month sum, while
a record dated after today is included in the week sum too. -/
theorem week_month_coverage (st : Store) (today : Date) (r : TokenUsage) (model : String)
    (hrm : r.model = model) :
    ((r.date.year = today.year ∧ r.date.month = today.month ∧ 1 ≤ r.date.day ∧
        toDays r.date < weekStartDays today) →
      periodQuerySum (r :: st) today model "week" = periodQuerySum st today model "week" ∧
      periodQuerySum (r :: st) today model "month"
        = r.totalTokens + periodQuerySum st today model "month") ∧
    (toDays today < toDays r.date →
      periodQuerySum (r :: st) today model "week"
        = r.totalTokens + periodQuerySum st today model "week") := by
  have etoday : toDays today
      = toDays ⟨today.year, today.month, 1⟩ + ((today.day : Int) - 1) :=
    toDays_day_split today.year today.month today.day
  have er : toDays r.date
      = toDays ⟨r.date.year, r.date.month, 1⟩ + ((r.date.day : Int) - 1) :=
    toDays_day_split r.date.year r.date.month r.date.day
  constructor
  · rintro ⟨hy, hmo, hd1, hw⟩
    have hmonth : monthStartDays today ≤ toDays r.date := by
      rw [hy, hmo] at er
      unfold monthStartDays
      omega
    constructor
    · rw [periodQuerySum_week, periodQuerySum_week, dbSumTokens_cons_some]
      have hc : (r.model = model && decide (weekStartDays today ≤ toDays r.date)) = false := by
        simp [hrm]
        omega
      rw [hc]
      simp
    · rw [periodQuerySum_month, periodQuerySum_month, dbSumTokens_cons_some]
      have hc : (r.model = model && decide (monthStartDays today ≤ toDays r.date)) = true := by
        simp [hrm]
        exact hmonth
      rw [hc]
      simp
  · intro hfut
    have hw : weekStartDays today ≤ toDays r.date :=
      le_trans (weekStart_le_today today) (le_of_lt hfut)
    rw [periodQuerySum_week, periodQuerySum_week, dbSumTokens_cons_some]
    have hc : (r.model = model && decide (weekStartDays today ≤ toDays r.date)) = true := by
      simp [hrm]
      exact hw
    rw [hc]
    simp

/-- Witness for the amended C6: on 2024-01-10, a record dated 2024-01-02
(inside January, before the week start 2024-01-07) is excluded from the
week sum and included in the month sum; a record dated 2024-01-20 is
included in the week sum. -/
theorem week_month_coverage_witness :
    periodQuerySum [⟨1, ⟨2024, 1, 2⟩, "gpt-4", 40⟩] ⟨2024, 1, 10⟩ "gpt-4" "week"
      = periodQuerySum [] ⟨2024, 1, 10⟩ "gpt-4" "week" ∧
    periodQuerySum [⟨1, ⟨2024, 1, 2⟩, "gpt-4", 40⟩] ⟨2024, 1, 10⟩ "gpt-4" "month"
      = 40 + periodQuerySum [] ⟨2024, 1, 10⟩ "gpt-4" "month" ∧
    periodQuerySum [⟨2, ⟨2024, 1, 20⟩, "gpt-4", 100⟩] ⟨2024, 1, 10⟩ "gpt-4" "week"
      = 100 + periodQuerySum [] ⟨2024, 1, 10⟩ "gpt-4" "week" :=
  ⟨((week_month_coverage [] ⟨2024, 1, 10⟩ ⟨1, ⟨2024, 1, 2⟩, "gpt-4", 40⟩ "gpt-4" rfl).1
      (by refine ⟨rfl, rfl, ?_, ?_⟩ <;> decide)).1,
   ((week_month_coverage [] ⟨2024, 1, 10⟩ ⟨1, ⟨2024, 1, 2⟩, "gpt-4", 40⟩ "gpt-4" rfl).1
      (by refine ⟨rfl, rfl, ?_, ?_⟩ <;> decide)).2,
   (week_month_coverage [] ⟨2024, 1, 10⟩ ⟨2, ⟨2024, 1, 20⟩, "gpt-4", 100⟩ "gpt-4" rfl).2
      (by decide)⟩

theorem connectGo_opens_le (oracle : Nat → AttemptOutcome) :
    ∀ rem i delay : Nat,
      countOpens (connectGo oracle i rem delay).1 ≤ rem := by
  intro rem
  induction rem with
  | zero => intro i delay; simp [connectGo, countOpens]
  | succ n ih =>
    intro i delay
    cases h : oracle i with
    | openFail =>
      have := ih (i + 1) (delay * 2)
      simp only [connectGo, h, countOpens]
      omega
    | pingFail =>
      have := ih (i + 1) (delay * 2)
      simp only [connectGo, h, countOpens]
      omega
    | ok => simp [connectGo, h, countOpens]

theorem connectGo_sleeps (oracle : Nat → AttemptOutcome) :
    ∀ rem i delay : Nat, ∃ k, k ≤ rem ∧
      sleepDurations (connectGo oracle i rem delay).1
        = (List.range k).map (fun j => delay * 2 ^ j) := by
  intro rem
  induction rem with
  | zero =>
    intro i delay
    exact ⟨0, Nat.le_refl 0, by simp [connectGo, sleepDurations]⟩
  | succ n ih =>
    intro i delay
    cases h : oracle i with
    | ok => exact ⟨0, Nat.zero_le _, by simp [connectGo, h, sleepDurations]⟩
    | openFail =>
      obtain ⟨k, hk, hs⟩ := ih (i + 1) (delay * 2)
      refine ⟨k + 1, by omega, ?_⟩
      have hfun : ((fun j => delay * 2 ^ j) ∘ Nat.succ) = (fun j => delay * 2 * 2 ^ j) := by
        funext j
        simp only [Function.comp, pow_succ]
        ring
      simp only [connectGo, h, sleepDurations]
      rw [hs, List.range_succ_eq_map, List.map_cons, List.map_map, hfun]
      simp
    | pingFail =>
      obtain ⟨k, hk, hs⟩ := ih (i + 1) (delay * 2)
      refine ⟨k + 1, by omega, ?_⟩
      have hfun : ((fun j => delay * 2 ^ j) ∘ Nat.succ) = (fun j => delay * 2 * 2 ^ j) := by
        funext j
        simp only [Function.comp, pow_succ]
        ring
      simp only [connectGo, h, sleepDurations]
      rw [hs, List.range_succ_eq_map, List.map_cons, List.map_map, hfun]
      simp

theorem connectGo_closes (oracle : Nat → AttemptOutcome) :
    ∀ rem i delay : Nat,
      (((connectGo oracle i rem delay).2 = ConnectOutcome.fatal →
        countCloses (connectGo oracle i rem delay).1
          = countPings (connectGo oracle i rem delay).1) ∧
       (∀ k, (connectGo oracle i rem delay).2 = ConnectOutcome.connected k →
        countCloses (connectGo oracle i rem delay).1 + 1
          = countPings (connectGo oracle i rem delay).1)) := by
  intro rem
  induction rem with
  | zero =>
    intro i delay
    refine ⟨fun _ => rfl, fun k hk => ?_⟩
    simp [connectGo] at hk
  | succ n ih =>
    intro i delay
    cases h : oracle i with
    | ok =>
      constructor
      · intro hf; simp [connectGo, h] at hf
      · intro k hk
        simp [connectGo, h, countCloses, countPings]
    | openFail =>
      obtain ⟨ihf, ihc⟩ := ih (i + 1) (delay * 2)
      constructor
      · intro hf
        simp only [connectGo, h] at hf ⊢
        simp only [countCloses, countPings]
        exact ihf hf
      · intro k hk
        simp only [connectGo, h] at hk ⊢
        simp only [countCloses, countPings]
        exact ihc k hk
    | pingFail =>
      obtain ⟨ihf, ihc⟩ := ih (i + 1) (delay * 2)
      constructor
      · intro hf
        simp only [connectGo, h] at hf ⊢
        simp only [countCloses, countPings]
        have := ihf hf
        omega
      · intro k hk
        simp only [connectGo, h] at hk ⊢
        simp only [countCloses, countPings]
        have := ihc k hk
        omega

theorem connectGo_connected_iff (oracle : Nat → AttemptOutcome) :
    ∀ rem i delay k,
      (connectGo oracle i rem delay).2 = ConnectOutcome.connected k ↔
        (i ≤ k ∧ k < i + rem ∧ oracle k = AttemptOutcome.ok ∧
          ∀ j, i ≤ j → j < k → oracle j ≠ AttemptOutcome.ok) := by
  intro rem
  induction rem with
  | zero =>
    intro i delay k
    constructor
    · intro hk; simp [connectGo] at hk
    · rintro ⟨h1, h2, -, -⟩; omega
  | succ n ih =>
    intro i delay k
    cases h : oracle i with
    | ok =>
      simp only [connectGo, h]
      constructor
      · intro hk
        have hik : i = k := by
          injection hk
        subst hik
        exact ⟨le_rfl, by omega, h, fun j hj1 hj2 => by omega⟩
      · rintro ⟨h1, h2, h3, h4⟩
        have hik : k = i := by
          by_contra hne
          exact h4 i le_rfl (lt_of_le_of_ne h1 (Ne.symm hne)) h
        subst hik
        rfl
    | openFail =>
      simp only [connectGo, h]
      rw [ih (i + 1) (delay * 2) k]
      constructor
      · rintro ⟨h1, h2, h3, h4⟩
        refine ⟨by omega, by omega, h3, fun j hj1 hj2 => ?_⟩
        by_cases hji : j = i
        · subst hji; rw [h]; intro hc; cases hc
        · exact h4 j (by omega) hj2
      · rintro ⟨h1, h2, h3, h4⟩
        have hki : k ≠ i := fun he => by rw [he, h] at h3; cases h3
        exact ⟨by omega, by omega, h3, fun j hj1 hj2 => h4 j (by omega) hj2⟩
    | pingFail =>
      simp only [connectGo, h]
      rw [ih (i + 1) (delay * 2) k]
      constructor
      · rintro ⟨h1, h2, h3, h4⟩
        refine ⟨by omega, by omega, h3, fun j hj1 hj2 => ?_⟩
        by_cases hji : j = i
        · subst hji; rw [h]; intro hc; cases hc
        · exact h4 j (by omega) hj2
      · rintro ⟨h1, h2, h3, h4⟩
        have hki : k ≠ i := fun he => by rw [he, h] at h3; cases h3
        exact ⟨by omega, by omega, h3, fun j hj1 hj2 => h4 j (by omega) hj2⟩

theorem connectGo_fatal (oracle : Nat → AttemptOutcome) :
    ∀ rem i delay,
      (∀ j, i ≤ j → j < i + rem → oracle j ≠ AttemptOutcome.ok) →
      (connectGo oracle i rem delay).2 = ConnectOutcome.fatal := by
  intro rem
  induction rem with
  | zero => intro i delay _; rfl
  | succ n ih =>
    intro i delay hall
    cases h : oracle i with
    | ok => exact absurd h (hall i le_rfl (by omega))
    | openFail =>
      simp only [connectGo, h]
      exact ih (i + 1) (delay * 2) (fun j hj1 hj2 => hall j (by omega) (by omega))
    | pingFail =>
      simp only [connectGo, h]
      exact ih (i + 1) (delay * 2) (fun j hj1 hj2 => hall j (by omega) (by omega))

/-- C10: the bootstrap attempts the open-and-ping sequence at most 5
times with inter-attempt delays doubling from 2; every failed-ping
attempt closes its handle (closes = pings on the all-fail path, pings
minus the one successful ping otherwise); it connects exactly at the
first successful attempt below 5; and if all 5 attempts fail the
outcome is the fatal termination. -/
theorem startup_retry_policy (oracle : Nat → AttemptOutcome) :
    countOpens (initStoreConnect oracle).1 ≤ 5 ∧
    (∃ k, k ≤ 5 ∧ sleepDurations (initStoreConnect oracle).1
        = (List.range k).map (fun j => 2 * 2 ^ j)) ∧
    ((initStoreConnect oracle).2 = ConnectOutcome.fatal →
      countCloses (initStoreConnect oracle).1
        = countPings (initStoreConnect oracle).1) ∧
    (∀ k, (initStoreConnect oracle).2 = ConnectOutcome.connected k →
      countCloses (initStoreConnect oracle).1 + 1
        = countPings (initStoreConnect oracle).1) ∧
    (∀ k, (initStoreConnect oracle).2 = ConnectOutcome.connected k ↔
      (k < 5 ∧ oracle k = AttemptOutcome.ok ∧
        ∀ j, j < k → oracle j ≠ AttemptOutcome.ok)) ∧
    ((∀ j, j < 5 → oracle j ≠ AttemptOutcome.ok) →
      (initStoreConnect oracle).2 = ConnectOutcome.fatal) := by
  refine ⟨connectGo_opens_le oracle 5 0 2, connectGo_sleeps oracle 5 0 2,
    (connectGo_closes oracle 5 0 2).1, (connectGo_closes oracle 5 0 2).2, ?_, ?_⟩
  · intro k
    rw [initStoreConnect, connectGo_connected_iff oracle 5 0 2 k]
    constructor
    · rintro ⟨-, h2, h3, h4⟩
      exact ⟨by omega, h3, fun j hj => h4 j (Nat.zero_le j) hj⟩
    · rintro ⟨h2, h3, h4⟩
      exact ⟨Nat.zero_le k, by omega, h3, fun j _ hj => h4 j hj⟩
  · intro hall
    exact connectGo_fatal oracle 5 0 2 (fun j hj1 hj2 => hall j (by omega))

/-- Witness for C10: a backend whose ping always fails — the bootstrap
sleeps 2, 4, 8, 16, 32, makes exactly 5 attempts, closes all 5 handles
and ends fatal. -/
theorem startup_retry_policy_witness :
    (initStoreConnect (fun _ => AttemptOutcome.pingFail)).2 = ConnectOutcome.fatal ∧
    sleepDurations (initStoreConnect (fun _ => AttemptOutcome.pingFail)).1
      = [2, 4, 8, 16, 32] ∧
    countOpens (initStoreConnect (fun _ => AttemptOutcome.pingFail)).1 = 5 ∧
    countCloses (initStoreConnect (fun _ => AttemptOutcome.pingFail)).1 = 5 :=
  ⟨(startup_retry_policy (fun _ => AttemptOutcome.pingFail)).2.2.2.2.2
      (fun j _ => by intro hc; cases hc),
   by decide, by decide, by decide⟩

end TokenCounter
